import Mathlib

/-!
# Verification of the ctx-run conceptual-test runner core

Shallow embedding of `tools/ctx-run/ctx_run.py`: the JSON value model used by
the parser and cache, the three-layer response parser (`parse_llm_response`),
the result reducer (`build_scenario_result`), the cache fingerprint
(`make_cache_key`), cache entry serialization, and the per-scenario
orchestrator (`run_scenario`).

Python values flowing through the runner are dynamically typed, so they are
modelled by a single `Json` inductive; Python truthiness, `dict.get`,
subscripting (which raises on missing keys) and `len` are modelled explicitly.
Fallible Python code (code that can raise) is embedded as `Option`-returning
functions, with `none` standing for a raised exception.
-/

/-- JSON/YAML value universe: the dynamic values handled by the runner.
Numeric literals are modelled as integers; fractional/exponent literals and
the Python extensions `NaN`/`Infinity` are outside the response language
analyzed here and are modelled as decode failures. -/
inductive Json where
  | null : Json
  | bool (b : Bool) : Json
  | num (n : Int) : Json
  | str (s : String) : Json
  | arr (xs : List Json) : Json
  | obj (kvs : List (String × Json)) : Json

mutual

/-- Structural equality test on JSON values. -/
def Json.beq : Json → Json → Bool
  | .null, .null => true
  | .bool a, .bool b => a == b
  | .num a, .num b => a == b
  | .str a, .str b => a == b
  | .arr xs, .arr ys => jsonBeqList xs ys
  | .obj xs, .obj ys => jsonBeqPairs xs ys
  | _, _ => false

def jsonBeqList : List Json → List Json → Bool
  | [], [] => true
  | x :: xs, y :: ys => Json.beq x y && jsonBeqList xs ys
  | _, _ => false

def jsonBeqPairs : List (String × Json) → List (String × Json) → Bool
  | [], [] => true
  | (k1, v1) :: xs, (k2, v2) :: ys => k1 == k2 && Json.beq v1 v2 && jsonBeqPairs xs ys
  | _, _ => false

end

mutual

theorem Json.beq_iff : ∀ (a b : Json), Json.beq a b = true ↔ a = b
  | .null, b => by cases b <;> simp [Json.beq]
  | .bool a, b => by cases b <;> simp [Json.beq]
  | .num a, b => by cases b <;> simp [Json.beq]
  | .str a, b => by cases b <;> simp [Json.beq]
  | .arr xs, b => by
    cases b <;> simp [Json.beq]
    exact jsonBeqList_iff xs _
  | .obj xs, b => by
    cases b <;> simp [Json.beq]
    exact jsonBeqPairs_iff xs _

theorem jsonBeqList_iff : ∀ (xs ys : List Json), jsonBeqList xs ys = true ↔ xs = ys
  | [], ys => by cases ys <;> simp [jsonBeqList]
  | x :: xs, ys => by
    cases ys with
    | nil => simp [jsonBeqList]
    | cons y ys =>
      simp only [jsonBeqList, Bool.and_eq_true, List.cons.injEq]
      rw [Json.beq_iff x y, jsonBeqList_iff xs ys]

theorem jsonBeqPairs_iff :
    ∀ (xs ys : List (String × Json)), jsonBeqPairs xs ys = true ↔ xs = ys
  | [], ys => by cases ys <;> simp [jsonBeqPairs]
  | (k1, v1) :: xs, ys => by
    cases ys with
    | nil => simp [jsonBeqPairs]
    | cons p ys =>
      obtain ⟨k2, v2⟩ := p
      simp only [jsonBeqPairs, Bool.and_eq_true, List.cons.injEq, Prod.mk.injEq,
        beq_iff_eq]
      rw [Json.beq_iff v1 v2, jsonBeqPairs_iff xs ys]

end

instance : DecidableEq Json := fun a b =>
  decidable_of_iff (Json.beq a b = true) (Json.beq_iff a b)

/-- Python truthiness (`bool(v)` / `if v:`) on JSON values:
`None`, `False`, `0`, `""`, `[]` and the empty object are falsy. -/
def Json.truthy : Json → Bool
  | .null => false
  | .bool b => b
  | .num n => decide (n ≠ 0)
  | .str s => !s.isEmpty
  | .arr xs => !xs.isEmpty
  | .obj kvs => !kvs.isEmpty

/-- `v is None` in Python: true exactly on the JSON null. -/
def Json.isNull : Json → Bool
  | .null => true
  | _ => false

/-- Whether a JSON value is an object (used to state parser properties). -/
def Json.isObj : Json → Bool
  | .obj _ => true
  | _ => false

/-- Dictionary lookup with Python semantics: the *last* binding of a key wins
(matching `dict` construction from a key/value sequence). -/
def lookupLast (kvs : List (String × Json)) (k : String) : Option Json :=
  kvs.foldl (fun acc p => if p.1 == k then some p.2 else acc) none

/-- `d.get(k, default)`: `none` models the `AttributeError` raised when the
receiver is not a dict. -/
def jGetD (j : Json) (k : String) (d : Json) : Option Json :=
  match j with
  | .obj kvs => some ((lookupLast kvs k).getD d)
  | _ => none

/-- `d[k]` subscripting: `none` models a `KeyError`/`TypeError`. -/
def jIndex (j : Json) (k : String) : Option Json :=
  match j with
  | .obj kvs => lookupLast kvs k
  | _ => none

/-- View a JSON value as a Python list; `none` models the `TypeError` raised
when a non-sequence is iterated or indexed positionally. -/
def asArr : Json → Option (List Json)
  | .arr xs => some xs
  | _ => none

/-- `len(v)` for the sized values reaching the runner; `none` models the
`TypeError` raised on unsized values. -/
def jLen : Json → Option Nat
  | .arr xs => some xs.length
  | .str s => some s.length
  | .obj kvs => some kvs.length
  | _ => none

/-! ## Characters used by the decoder (written via code points to keep the
source free of stray delimiter characters) -/

def openBraceChar : Char := Char.ofNat 123
def closeBraceChar : Char := Char.ofNat 125
def openBracketChar : Char := Char.ofNat 91
def closeBracketChar : Char := Char.ofNat 93
def quoteChar : Char := Char.ofNat 34
def backslashChar : Char := Char.ofNat 92
def backtickChar : Char := Char.ofNat 96

/-- JSON structural whitespace (`json.loads` skips space, tab, LF, CR). -/
def isJsonWs (c : Char) : Bool :=
  c == ' ' || c == '\t' || c == '\n' || c == '\r'

def skipWs (cs : List Char) : List Char :=
  cs.dropWhile isJsonWs

def isDigitChar (c : Char) : Bool :=
  '0' ≤ c && c ≤ '9'

def isHexChar (c : Char) : Bool :=
  isDigitChar c || ('a' ≤ c && c ≤ 'f') || ('A' ≤ c && c ≤ 'F')

def hexVal (c : Char) : Nat :=
  if isDigitChar c then c.toNat - 48
  else if 'a' ≤ c && c ≤ 'f' then c.toNat - 87
  else c.toNat - 55

def digitsToNat (ds : List Char) : Nat :=
  ds.foldl (fun acc c => acc * 10 + (c.toNat - 48)) 0

/-- Decode a JSON escape sequence after the backslash; returns the decoded
character and the remaining input. -/
def decodeEscape (cs : List Char) : Option (Char × List Char) :=
  match cs with
  | [] => none
  | e :: rest =>
    if e == quoteChar then some (quoteChar, rest)
    else if e == backslashChar then some (backslashChar, rest)
    else if e == '/' then some ('/', rest)
    else if e == 'b' then some (Char.ofNat 8, rest)
    else if e == 'f' then some (Char.ofNat 12, rest)
    else if e == 'n' then some ('\n', rest)
    else if e == 'r' then some ('\r', rest)
    else if e == 't' then some ('\t', rest)
    else if e == 'u' then
      match rest with
      | h1 :: h2 :: h3 :: h4 :: rest2 =>
        if isHexChar h1 && isHexChar h2 && isHexChar h3 && isHexChar h4 then
          some (Char.ofNat
            (hexVal h1 * 4096 + hexVal h2 * 256 + hexVal h3 * 16 + hexVal h4), rest2)
        else none
      | _ => none
    else none

/-- Body of a JSON string literal: characters up to the closing quote.
Raw control characters are rejected (strict `json.loads`). -/
def decodeStringBody (fuel : Nat) (cs : List Char) : Option (List Char × List Char) :=
  match fuel, cs with
  | 0, _ => none
  | _, [] => none
  | fuel + 1, c :: rest =>
    if c == quoteChar then some ([], rest)
    else if c == backslashChar then
      match decodeEscape rest with
      | none => none
      | some (d, rest2) =>
        match decodeStringBody fuel rest2 with
        | none => none
        | some (body, rest3) => some (d :: body, rest3)
    else if c.toNat < 32 then none
    else
      match decodeStringBody fuel rest with
      | none => none
      | some (body, rest3) => some (c :: body, rest3)

/-- Integer numeric literal: optional minus, digits, no leading zeros.
A following fraction/exponent marker makes the decode fail (see `Json`). -/
def decodeNumber (cs : List Char) : Option (Json × List Char) :=
  let (neg, cs1) :=
    match cs with
    | c :: rest => if c == '-' then (true, rest) else (false, cs)
    | [] => (false, cs)
  let ds := cs1.takeWhile isDigitChar
  let rest := cs1.dropWhile isDigitChar
  if ds.isEmpty then none
  else if ds.length > 1 && ds.headD '0' == '0' then none
  else
    match rest with
    | c :: _ =>
      if c == '.' || c == 'e' || c == 'E' then none
      else some (.num (if neg then -(digitsToNat ds : Int) else (digitsToNat ds : Int)), rest)
    | [] => some (.num (if neg then -(digitsToNat ds : Int) else (digitsToNat ds : Int)), rest)

mutual

/-- Decode one JSON value starting at `cs` (leading whitespace allowed);
returns the value and the unconsumed input. Fuel-indexed recursion; the
top-level entry point supplies ample fuel. -/
def decodeValue (fuel : Nat) (cs : List Char) : Option (Json × List Char) :=
  match fuel with
  | 0 => none
  | fuel + 1 =>
    let cs := skipWs cs
    match cs with
    | [] => none
    | c :: rest =>
      if c == openBraceChar then decodeMembers fuel (skipWs rest) [] true
      else if c == openBracketChar then decodeElements fuel (skipWs rest) [] true
      else if c == quoteChar then
        match decodeStringBody fuel rest with
        | none => none
        | some (body, rest2) => some (.str (String.mk body), rest2)
      else if c == 't' then
        match cs with
        | 't' :: 'r' :: 'u' :: 'e' :: rest2 => some (.bool true, rest2)
        | _ => none
      else if c == 'f' then
        match cs with
        | 'f' :: 'a' :: 'l' :: 's' :: 'e' :: rest2 => some (.bool false, rest2)
        | _ => none
      else if c == 'n' then
        match cs with
        | 'n' :: 'u' :: 'l' :: 'l' :: rest2 => some (.null, rest2)
        | _ => none
      else decodeNumber cs

/-- Object members after the opening brace (whitespace already skipped);
`first` is true before any member has been read. -/
def decodeMembers (fuel : Nat) (cs : List Char) (acc : List (String × Json))
    (first : Bool) : Option (Json × List Char) :=
  match fuel with
  | 0 => none
  | fuel + 1 =>
    match cs with
    | [] => none
    | c :: rest =>
      if c == closeBraceChar && first then some (.obj acc.reverse, rest)
      else
        let csK :=
          if first then cs
          else if c == ',' then skipWs rest
          else []
        if c == closeBraceChar && !first then some (.obj acc.reverse, rest)
        else
          match csK with
          | [] => none
          | k :: restK =>
            if k == quoteChar then
              match decodeStringBody fuel restK with
              | none => none
              | some (keyBody, rest2) =>
                match skipWs rest2 with
                | ':' :: rest3 =>
                  match decodeValue fuel rest3 with
                  | none => none
                  | some (v, rest4) =>
                    decodeMembers fuel (skipWs rest4)
                      ((String.mk keyBody, v) :: acc) false
                | _ => none
            else none

/-- Array elements after the opening bracket (whitespace already skipped). -/
def decodeElements (fuel : Nat) (cs : List Char) (acc : List Json)
    (first : Bool) : Option (Json × List Char) :=
  match fuel with
  | 0 => none
  | fuel + 1 =>
    match cs with
    | [] => none
    | c :: rest =>
      if c == closeBracketChar && first then some (.arr acc.reverse, rest)
      else if c == closeBracketChar && !first then some (.arr acc.reverse, rest)
      else
        let csV :=
          if first then cs
          else if c == ',' then skipWs rest
          else []
        if csV.isEmpty then none
        else
          match decodeValue fuel csV with
          | none => none
          | some (v, rest2) =>
            decodeElements fuel (skipWs rest2) (v :: acc) false

end

/-- `json.loads`: decode the whole string as one JSON document; trailing
non-whitespace input is an error. -/
def jsonDecode (s : String) : Option Json :=
  match decodeValue (s.length + 1) s.data with
  | none => none
  | some (v, rest) => if (skipWs rest).isEmpty then some v else none

/-! ## Response parsing: `parse_llm_response` and its three layers -/

/-- Python string-level whitespace (`str.strip()` default set and the ASCII
range of the regex class for whitespace). -/
def isPyWs (c : Char) : Bool :=
  c == ' ' || c == '\t' || c == '\n' || c == '\r' ||
    c == Char.ofNat 11 || c == Char.ofNat 12

/-- `raw.strip()`: remove leading and trailing whitespace. -/
def pyStrip (s : String) : String :=
  String.mk (((s.data.dropWhile isPyWs).reverse.dropWhile isPyWs).reverse)

/-- Alternation branch 1 of the fence-stripping substitution: at a line start,
three backticks, an optional literal tag `json`, then greedy whitespace.
Returns the remaining input and whether the last consumed character was a
newline (so the next scan position is again a line start). -/
def fenceOpenMatch (atLineStart : Bool) (cs : List Char) :
    Option (Bool × List Char) :=
  if !atLineStart then none
  else
    match cs with
    | c0 :: c1 :: c2 :: rest =>
      if c0 == backtickChar && c1 == backtickChar && c2 == backtickChar then
        let rest2 :=
          match rest with
          | 'j' :: 's' :: 'o' :: 'n' :: r => r
          | _ => rest
        let ws := rest2.takeWhile isPyWs
        some (ws.getLast? == some '\n', rest2.dropWhile isPyWs)
      else none
    | _ => none

/-- Check that three backticks start at the given drop offset and are followed
by a line end (end of input or a newline, per a multiline end anchor). -/
def fenceCloseAt (cs : List Char) (k : Nat) : Bool :=
  match cs.drop k with
  | c0 :: c1 :: c2 :: rest =>
    c0 == backtickChar && c1 == backtickChar && c2 == backtickChar &&
      (rest.isEmpty || rest.headD ' ' == '\n')
  | _ => false

/-- Backtracking search for branch 2 (greedy whitespace, then three backticks
at a line end): try the longest whitespace prefix first. -/
def fenceCloseSearch (cs : List Char) : Nat → Option (List Char)
  | 0 => if fenceCloseAt cs 0 then some (cs.drop 3) else none
  | k + 1 =>
    if fenceCloseAt cs (k + 1) then some (cs.drop (k + 1 + 3))
    else fenceCloseSearch cs k

/-- Alternation branch 2: whitespace then a closing triple backtick at a line
end; the newline after the backticks is not consumed. -/
def fenceCloseMatch (cs : List Char) : Option (List Char) :=
  fenceCloseSearch cs (cs.takeWhile isPyWs).length

/-- Scan of the multiline substitution that deletes fence markers: at every
position try branch 1 then branch 2; on a match, continue after it, otherwise
keep one character and move on. -/
def fenceSubGo (fuel : Nat) (atLineStart : Bool) (cs : List Char) : List Char :=
  match fuel with
  | 0 => cs
  | fuel + 1 =>
    match fenceOpenMatch atLineStart cs with
    | some (nextStart, rest) => fenceSubGo fuel nextStart rest
    | none =>
      match fenceCloseMatch cs with
      | some rest => fenceSubGo fuel false rest
      | none =>
        match cs with
        | [] => []
        | c :: rest => c :: fenceSubGo fuel (c == '\n') rest

/-- The fence-stripping substitution applied by layer 2 (the embedding of the
multiline regex substitution deleting opening and closing code fences). -/
def fenceSub (s : String) : String :=
  String.mk (fenceSubGo (s.length + 1) true s.data)

/-- Layer 3 extraction: substring from the first opening brace to the last
closing brace, spanning newlines; needs at least one character between-free
pair ordered first-before-last. -/
def extractBraces (s : String) : Option String :=
  let cs := s.data
  match cs.findIdx? (fun c => c == openBraceChar) with
  | none => none
  | some i =>
    match cs.reverse.findIdx? (fun c => c == closeBraceChar) with
    | none => none
    | some jr =>
      let j := cs.length - 1 - jr
      if i < j then some (String.mk ((cs.drop i).take (j - i + 1))) else none

/-- `try_parse` from the source: a decode failure becomes `none`. -/
def try_parse (text : String) : Option Json :=
  jsonDecode text

/-- `if result: return result` — a decoded value counts as a success for a
layer only when it is truthy. -/
def keepTruthy : Option Json → Option Json
  | some v => if v.truthy then some v else none
  | none => none

/-- Layer 1: direct decode of the raw text. -/
def layer1 (raw : String) : Option Json :=
  keepTruthy (try_parse raw)

/-- Layer 2: strip surrounding whitespace, delete fence markers, decode. -/
def layer2 (raw : String) : Option Json :=
  keepTruthy (try_parse (fenceSub (pyStrip raw)))

/-- Layer 3: decode the greedy first-to-last brace extraction. -/
def layer3 (raw : String) : Option Json :=
  match extractBraces raw with
  | some sub => keepTruthy (try_parse sub)
  | none => none

/-- `parse_llm_response`: three-layer parsing with graceful fallback; the
`expected_steps` argument is accepted and unused, as in the source. -/
def parse_llm_response (raw : String) (expected_steps : Nat) : Option Json :=
  match layer1 raw with
  | some v => some v
  | none =>
    match layer2 raw with
    | some v => some v
    | none => layer3 raw

/-! ## Data model: `StepResult` and `ScenarioResult`

Fields holding model- or file-supplied values are dynamically typed in the
source, so they carry `Json`; `passed` is stored as the boolean produced by
the reducer but read back untyped from a cache entry, hence also `Json`. -/

structure StepResult where
  action : Json
  expect : Json
  passed : Json
  explanation : Json
  deriving DecidableEq

structure ScenarioResult where
  name : Json
  steps : List StepResult
  overall_passed : Json
  error : Json
  fix_suggestion : Option String
  from_cache : Bool
  deriving DecidableEq

/-! ## Result reducer: `build_scenario_result` -/

/-- The positional walk over the expected steps (the loop of
`build_scenario_result`): an entry of the judgment's step list is consumed
per expected step; once the judgment list is exhausted, failing placeholder
results are synthesized. `none` models a raised exception (a non-dict step). -/
def stepResultsWalk : List Json → List Json → Option (List StepResult)
  | [], _ => some []
  | expected :: es, llmStep :: ls => do
    let passedV ← jGetD llmStep "passed" (Json.bool false)
    let explanation ← jGetD llmStep "explanation" (Json.str "")
    let action ← jGetD expected "action" (Json.str "")
    let expect ← jGetD expected "expect" (Json.str "")
    let rest ← stepResultsWalk es ls
    some ({ action := action, expect := expect, passed := Json.bool passedV.truthy,
            explanation := explanation } :: rest)
  | expected :: es, [] => do
    let action ← jGetD expected "action" (Json.str "")
    let expect ← jGetD expected "expect" (Json.str "")
    let rest ← stepResultsWalk es []
    some ({ action := action, expect := expect, passed := Json.bool false,
            explanation := Json.str "Step missing from LLM response" } :: rest)

/-- `build_scenario_result(scenario, raw_response, parsed)`. When the parse
failed (`parsed = none`) the result carries an error with a 200-character
excerpt of the raw response; otherwise step results are synthesized
positionally and the overall verdict is recomputed from them, ignoring the
judgment's own `overall` field. `none` models a raised exception on
malformed shapes. -/
def build_scenario_result (scenario : Json) (raw_response : String)
    (parsed : Option Json) : Option ScenarioResult := do
  let name ← jGetD scenario "name" (Json.str "unnamed")
  let expectedJ ← jGetD scenario "steps" (Json.arr [])
  match parsed with
  | none =>
    some { name := name, steps := [], overall_passed := Json.bool false,
           error := Json.str ("LLM response could not be parsed. Raw: " ++
             raw_response.take 200),
           fix_suggestion := none, from_cache := false }
  | some p => do
    let llmStepsJ ← jGetD p "steps" (Json.arr [])
    let expected ← asArr expectedJ
    let llmSteps ← asArr llmStepsJ
    let steps ← stepResultsWalk expected llmSteps
    some { name := name, steps := steps,
           overall_passed := Json.bool (steps.all (fun s => s.passed.truthy)),
           error := Json.null, fix_suggestion := none, from_cache := false }

/-! ## Cache entry serialization -/

def step_to_entry (s : StepResult) : Json :=
  Json.obj [("action", s.action), ("expect", s.expect),
            ("passed", s.passed), ("explanation", s.explanation)]

/-- `_scenario_to_cache_entry`: the wall-clock timestamp taken inside the
source function is passed in as a parameter. -/
def _scenario_to_cache_entry (timestamp : String) (result : ScenarioResult) : Json :=
  Json.obj [("timestamp", Json.str timestamp),
            ("result", Json.obj [
              ("name", result.name),
              ("overall_passed", result.overall_passed),
              ("error", result.error),
              ("steps", Json.arr (result.steps.map step_to_entry))])]

def step_from_entry (s : Json) : Option StepResult := do
  let action ← jIndex s "action"
  let expect ← jIndex s "expect"
  let passed ← jIndex s "passed"
  let explanation ← jIndex s "explanation"
  some { action := action, expect := expect, passed := passed,
         explanation := explanation }

/-- `_scenario_from_cache_entry`: rebuild a `ScenarioResult` from a cache
entry, marking it as served from the cache. `none` models a raised
`KeyError`/`TypeError` on a malformed entry. -/
def _scenario_from_cache_entry (entry : Json) : Option ScenarioResult := do
  let d ← jIndex entry "result"
  let stepsJ ← jGetD d "steps" (Json.arr [])
  let stepsL ← asArr stepsJ
  let steps ← stepsL.mapM step_from_entry
  let name ← jIndex d "name"
  let overall ← jGetD d "overall_passed" (Json.bool false)
  let error ← jGetD d "error" Json.null
  some { name := name, steps := steps, overall_passed := overall,
         error := error, fix_suggestion := none, from_cache := true }

/-! ## Deterministic serialization: `json.dumps(..., sort_keys=True)` -/

def hexDigitChar (n : Nat) : Char :=
  if n < 10 then Char.ofNat (48 + n) else Char.ofNat (97 + (n - 10))

def hex4 (n : Nat) : String :=
  String.mk [hexDigitChar (n / 4096 % 16), hexDigitChar (n / 256 % 16),
             hexDigitChar (n / 16 % 16), hexDigitChar (n % 16)]

/-- Serialize one character of a JSON string with ASCII-only output: the
printable ASCII range is kept, short escapes are used where they exist, and
everything else becomes a 4-digit escape (a pair of them beyond the basic
plane), as the serializer in the source library does. -/
def dumpChar (c : Char) : String :=
  let n := c.toNat
  if c == quoteChar then String.mk [backslashChar, quoteChar]
  else if c == backslashChar then String.mk [backslashChar, backslashChar]
  else if c == '\n' then String.mk [backslashChar, 'n']
  else if c == '\t' then String.mk [backslashChar, 't']
  else if c == '\r' then String.mk [backslashChar, 'r']
  else if n == 8 then String.mk [backslashChar, 'b']
  else if n == 12 then String.mk [backslashChar, 'f']
  else if 32 ≤ n && n ≤ 126 then String.mk [c]
  else if n < 65536 then String.mk [backslashChar, 'u'] ++ hex4 n
  else
    let m := n - 65536
    String.mk [backslashChar, 'u'] ++ hex4 (55296 + m / 1024) ++
      String.mk [backslashChar, 'u'] ++ hex4 (56320 + m % 1024)

def dumpString (s : String) : String :=
  String.mk [quoteChar] ++ String.join (s.data.map dumpChar) ++ String.mk [quoteChar]

/-- Key order used by `sort_keys=True`: plain string comparison. -/
def pairKeyLe (a b : String × String) : Prop := a.1 ≤ b.1

instance : DecidableRel pairKeyLe := fun a b => by
  unfold pairKeyLe; infer_instance

instance : IsTotal (String × String) pairKeyLe :=
  ⟨fun a b => le_total a.1 b.1⟩

instance : IsTrans (String × String) pairKeyLe :=
  ⟨fun _ _ _ h1 h2 => le_trans h1 h2⟩

def sortPairs (l : List (String × String)) : List (String × String) :=
  List.insertionSort pairKeyLe l

mutual

/-- `json.dumps(v, sort_keys=True)` with the default separators: object keys
are emitted in sorted order at every level, making the output independent of
incidental key ordering. -/
def jsonDumps : Json → String
  | .null => "null"
  | .bool true => "true"
  | .bool false => "false"
  | .num n => toString n
  | .str s => dumpString s
  | .arr xs =>
    String.mk [openBracketChar] ++ String.intercalate ", " (jsonDumpsList xs) ++
      String.mk [closeBracketChar]
  | .obj kvs =>
    String.mk [openBraceChar] ++
      String.intercalate ", "
        ((sortPairs (jsonDumpsPairs kvs)).map
          (fun p => dumpString p.1 ++ ": " ++ p.2)) ++
      String.mk [closeBraceChar]

def jsonDumpsList : List Json → List String
  | [] => []
  | v :: rest => jsonDumps v :: jsonDumpsList rest

def jsonDumpsPairs : List (String × Json) → List (String × String)
  | [] => []
  | (k, v) :: rest => (k, jsonDumps v) :: jsonDumpsPairs rest

end

/-! ## SHA-256 (the `hashlib.sha256(...).hexdigest()` used by the cache key) -/

def utf8EncodeChar (c : Char) : List Nat :=
  let n := c.toNat
  if n < 128 then [n]
  else if n < 2048 then [192 + n / 64, 128 + n % 64]
  else if n < 65536 then [224 + n / 4096, 128 + n / 64 % 64, 128 + n % 64]
  else [240 + n / 262144, 128 + n / 4096 % 64, 128 + n / 64 % 64, 128 + n % 64]

def utf8Bytes (s : String) : List Nat :=
  s.data.foldr (fun c acc => utf8EncodeChar c ++ acc) []

def w32 : Nat := 4294967296

def isPrimeNat (n : Nat) : Bool :=
  2 ≤ n && (List.range (n - 2)).all (fun d => n % (d + 2) ≠ 0)

def firstPrimes (count : Nat) : List Nat :=
  ((List.range 400).filter isPrimeNat).take count

/-- Largest `r` with `r^3 ≤ n`, by bisection (`lo` always satisfies the
bound, `hi` never does). -/
def icbrtGo (n : Nat) : Nat → Nat → Nat → Nat
  | 0, lo, _ => lo
  | fuel + 1, lo, hi =>
    let mid := (lo + hi) / 2
    if mid ≤ lo then lo
    else if mid * mid * mid ≤ n then icbrtGo n fuel mid hi
    else icbrtGo n fuel lo mid

def icbrt (n : Nat) : Nat :=
  icbrtGo n 256 0 (n + 1)

/-- The 64 round constants: the first 32 bits of the fractional parts of the
cube roots of the first 64 primes. -/
def sha256K : List Nat :=
  (firstPrimes 64).map (fun p => icbrt (p * 2 ^ 96) % w32)

/-- The 8 initial hash values: the first 32 bits of the fractional parts of
the square roots of the first 8 primes. -/
def sha256H0 : List Nat :=
  (firstPrimes 8).map (fun p => Nat.sqrt (p * 2 ^ 64) % w32)

def rotr32 (n x : Nat) : Nat :=
  ((x >>> n) ||| (x <<< (32 - n))) % w32

def bytesBE (count x : Nat) : List Nat :=
  (List.range count).map (fun i => x >>> (8 * (count - 1 - i)) % 256)

def sha256Pad (msg : List Nat) : List Nat :=
  let padZeros := (119 - msg.length % 64) % 64
  msg ++ [128] ++ List.replicate padZeros 0 ++ bytesBE 8 (msg.length * 8)

def chunks64 (fuel : Nat) (l : List Nat) : List (List Nat) :=
  match fuel, l with
  | 0, _ => []
  | _, [] => []
  | fuel + 1, l => l.take 64 :: chunks64 fuel (l.drop 64)

def words32 : List Nat → List Nat
  | b0 :: b1 :: b2 :: b3 :: rest =>
    (b0 * 16777216 + b1 * 65536 + b2 * 256 + b3) :: words32 rest
  | _ => []

def wAt (ws : List Nat) (k : Nat) : Nat := ws.getD k 0

def extendSchedule : Nat → List Nat → List Nat
  | 0, ws => ws
  | n + 1, ws =>
    let i := ws.length
    let w15 := wAt ws (i - 15)
    let w2 := wAt ws (i - 2)
    let s0 := (rotr32 7 w15) ^^^ (rotr32 18 w15) ^^^ (w15 >>> 3)
    let s1 := (rotr32 17 w2) ^^^ (rotr32 19 w2) ^^^ (w2 >>> 10)
    extendSchedule n (ws ++ [(wAt ws (i - 16) + s0 + wAt ws (i - 7) + s1) % w32])

def sha256Round (st : List Nat) (kw : Nat × Nat) : List Nat :=
  match st with
  | [a, b, c, d, e, f, g, h] =>
    let s1 := (rotr32 6 e) ^^^ (rotr32 11 e) ^^^ (rotr32 25 e)
    let ch := (e &&& f) ^^^ ((w32 - 1 - e) &&& g)
    let t1 := (h + s1 + ch + kw.1 + kw.2) % w32
    let s0 := (rotr32 2 a) ^^^ (rotr32 13 a) ^^^ (rotr32 22 a)
    let mj := (a &&& b) ^^^ (a &&& c) ^^^ (b &&& c)
    let t2 := (s0 + mj) % w32
    [(t1 + t2) % w32, a, b, c, (d + t1) % w32, e, f, g]
  | st => st

def sha256Block (hs : List Nat) (chunk : List Nat) : List Nat :=
  let ws := extendSchedule 48 (words32 chunk)
  let st := (sha256K.zip ws).foldl sha256Round hs
  (hs.zip st).map (fun p => (p.1 + p.2) % w32)

def hex8 (x : Nat) : String :=
  hex4 (x / 65536) ++ hex4 (x % 65536)

/-- `hashlib.sha256(data.encode()).hexdigest()`. -/
def sha256hex (s : String) : String :=
  let padded := sha256Pad (utf8Bytes s)
  let hs := (chunks64 padded.length padded).foldl sha256Block sha256H0
  String.join (hs.map hex8)

/-! ## Cache fingerprint and the in-memory entry map -/

/-- The exact byte string hashed by `make_cache_key`: scenario serialized with
sorted keys, then the source content (an absent source contributes the empty
string), then the model name, concatenated without separators. -/
def cacheKeyData (scenario : Json) (source_content : Option String)
    (model : String) : String :=
  jsonDumps scenario ++ source_content.getD "" ++ model

/-- `make_cache_key(scenario, source_content, model)`. -/
def make_cache_key (scenario : Json) (source_content : Option String)
    (model : String) : String :=
  sha256hex (cacheKeyData scenario source_content model)

/-- The in-memory cache: the `entries` dict keyed by fingerprint. -/
abbrev CacheMap := List (String × Json)

def lookupEntry (ce : CacheMap) (k : String) : Option Json :=
  (ce.find? (fun p => p.1 == k)).map (fun p => p.2)

/-- `cache_entries[key] = entry`: in-place update or ordered append. -/
def setEntry (ce : CacheMap) (k : String) (v : Json) : CacheMap :=
  if ce.any (fun p => p.1 == k) then
    ce.map (fun p => if p.1 == k then (k, v) else p)
  else ce ++ [(k, v)]

/-! ## Orchestrator: `run_scenario`

The gateway (`call_llm`) is an external capability; its two possible
invocations in a scenario run are modelled by their outcomes: `llmOutcome`
for the evaluation call and `fixOutcome` for the fix call, each either a
raised exception message (`Except.error`) or the returned text
(`Except.ok`). Prompt construction feeds only the gateway, so it is absorbed
into those outcomes; the timestamp taken when storing a cache entry is the
`timestamp` parameter. -/

/-- The cache lookup guard of `run_scenario`: an entry is served only when
caching is on, a map was supplied, and the fingerprint is present. -/
def cacheHit (use_cache : Bool) (cache_entries : Option CacheMap)
    (scenario : Json) (source_content : Option String) (model : String) :
    Option Json :=
  match use_cache, cache_entries with
  | true, some ce => lookupEntry ce (make_cache_key scenario source_content model)
  | _, _ => none

/-- `run_scenario`: cache check, gateway call, parse, reduce, conditional
cache store, optional best-effort fix pass. Returns the scenario result and
the updated entry map; `none` models an uncaught exception. -/
def run_scenario (model : String) (scenario : Json)
    (source_content : Option String) (timestamp : String)
    (use_cache : Bool) (cache_entries : Option CacheMap) (fix : Bool)
    (llmOutcome fixOutcome : Except String String) :
    Option (ScenarioResult × Option CacheMap) :=
  match cacheHit use_cache cache_entries scenario source_content model with
  | some entry =>
    (_scenario_from_cache_entry entry).map (fun r => (r, cache_entries))
  | none =>
    match llmOutcome with
    | .error exc => do
      let name ← jGetD scenario "name" (Json.str "unnamed")
      some ({ name := name, steps := [], overall_passed := Json.bool false,
              error := Json.str ("LLM error: " ++ exc),
              fix_suggestion := none, from_cache := false }, cache_entries)
    | .ok raw => do
      let expectedJ ← jGetD scenario "steps" (Json.arr [])
      let expectedLen ← jLen expectedJ
      let parsed := parse_llm_response raw expectedLen
      let result ← build_scenario_result scenario raw parsed
      let cache' :=
        match use_cache, cache_entries with
        | true, some ce =>
          if result.error.isNull then
            some (setEntry ce (make_cache_key scenario source_content model)
              (_scenario_to_cache_entry timestamp result))
          else some ce
        | _, _ => cache_entries
      let result' :=
        if fix && !result.overall_passed.truthy && result.error.isNull then
          match fixOutcome with
          | .ok text => { result with fix_suggestion := some text }
          | .error _ => result
        else result
      some (result', cache')

/-! ## Concrete fixtures (scenarios and judgments used to instantiate the
properties; shapes mirror the repository's own test data) -/

/-- A two-step scenario. -/
def exScenario2 : Json :=
  Json.obj [("name", Json.str "Test scenario"),
    ("steps", Json.arr [
      Json.obj [("action", Json.str "action 1"), ("expect", Json.str "expect 1")],
      Json.obj [("action", Json.str "action 2"), ("expect", Json.str "expect 2")]])]

/-- A judgment whose self-reported `overall` is `true` although its second
step failed. -/
def exJudgmentOverstated : Json :=
  Json.obj [("overall", Json.bool true),
    ("steps", Json.arr [
      Json.obj [("action", Json.str "action 1"), ("passed", Json.bool true),
                ("explanation", Json.str "ok")],
      Json.obj [("action", Json.str "action 2"), ("passed", Json.bool false),
                ("explanation", Json.str "failed")]])]

/-- A one-step scenario. -/
def exScenario1 : Json :=
  Json.obj [("name", Json.str "Single"),
    ("steps", Json.arr [
      Json.obj [("action", Json.str "do x"), ("expect", Json.str "y")]])]

/-- A judgment reporting `overall: true` with an empty step list. -/
def exJudgmentNoSteps : Json :=
  Json.obj [("overall", Json.bool true), ("steps", Json.arr [])]

/-- A judgment whose only step omits its `explanation` field. -/
def exJudgmentNoExplanation : Json :=
  Json.obj [("overall", Json.bool true),
    ("steps", Json.arr [Json.obj [("passed", Json.bool true)]])]

/-- A passing one-step result with no error, as produced by the reducer. -/
def exCleanResult : ScenarioResult :=
  { name := Json.str "My scenario",
    steps := [{ action := Json.str "do x", expect := Json.str "y happens",
                passed := Json.bool true, explanation := Json.str "because" }],
    overall_passed := Json.bool true, error := Json.null,
    fix_suggestion := none, from_cache := false }

/-- The reduction of `exJudgmentOverstated` against `exScenario2`: the second
step failed, so the recomputed verdict is `false` despite the judgment's
`overall: true`. -/
def exResultOverstated : ScenarioResult :=
  { name := Json.str "Test scenario",
    steps := [
      { action := Json.str "action 1", expect := Json.str "expect 1",
        passed := Json.bool true, explanation := Json.str "ok" },
      { action := Json.str "action 2", expect := Json.str "expect 2",
        passed := Json.bool false, explanation := Json.str "failed" }],
    overall_passed := Json.bool false, error := Json.null,
    fix_suggestion := none, from_cache := false }

/-- The reduction of the empty-step-list judgment against `exScenario1`. -/
def exResultMissing : ScenarioResult :=
  { name := Json.str "Single",
    steps := [{ action := Json.str "do x", expect := Json.str "y",
                passed := Json.bool false,
                explanation := Json.str "Step missing from LLM response" }],
    overall_passed := Json.bool false, error := Json.null,
    fix_suggestion := none, from_cache := false }

/-- The reduction of the explanation-less judgment against `exScenario1`. -/
def exResultNoExplanation : ScenarioResult :=
  { name := Json.str "Single",
    steps := [{ action := Json.str "do x", expect := Json.str "y",
                passed := Json.bool true, explanation := Json.str "" }],
    overall_passed := Json.bool true, error := Json.null,
    fix_suggestion := none, from_cache := false }

/-- A raw gateway reply whose judgment fails the single step. -/
def exRawOneFail : String :=
  "\x7b\"overall\":true,\"steps\":[\x7b\"passed\":false,\"explanation\":\"bad\"\x7d]\x7d"

/-- The reduction of `exRawOneFail` against `exScenario1`, before any fix
pass. -/
def exResultOneFail : ScenarioResult :=
  { name := Json.str "Single",
    steps := [{ action := Json.str "do x", expect := Json.str "y",
                passed := Json.bool false, explanation := Json.str "bad" }],
    overall_passed := Json.bool false, error := Json.null,
    fix_suggestion := none, from_cache := false }

/-- `exResultOneFail` with the fix suggestion returned by the fix pass. -/
def exResultOneFailFixed : ScenarioResult :=
  { exResultOneFail with fix_suggestion := some "Add a fix." }

/-! # Theorems -/

/-! ## Shared lemmas -/

theorem keepTruthy_eq_some {o : Option Json} {v : Json}
    (h : keepTruthy o = some v) : o = some v ∧ v.truthy = true := by
  cases o with
  | none => simp [keepTruthy] at h
  | some w =>
    simp only [keepTruthy] at h
    split at h
    · injection h with h
      subst h
      rename_i hw
      exact ⟨rfl, hw⟩
    · exact absurd h (by simp)

theorem isNull_iff (e : Json) : e.isNull = true ↔ e = Json.null := by
  cases e <;> simp [Json.isNull]

theorem setEntry_mem {ce : CacheMap} {k : String} {v : Json} {p : String × Json}
    (h : p ∈ setEntry ce k v) : p ∈ ce ∨ p = (k, v) := by
  unfold setEntry at h
  split at h
  · rw [List.mem_map] at h
    obtain ⟨q, hq, hqe⟩ := h
    by_cases hk : q.1 == k
    · simp [hk] at hqe
      exact Or.inr hqe.symm
    · simp [hk] at hqe
      exact Or.inl (hqe ▸ hq)
  · rw [List.mem_append] at h
    rcases h with h | h
    · exact Or.inl h
    · simp at h
      exact Or.inr (by simp [h])

/-- A list with an element whose `passed` is the false boolean cannot be
all-truthy. -/
theorem all_truthy_false {l : List StepResult} {i : Nat} (hi : i < l.length)
    (hp : (l.get ⟨i, hi⟩).passed = Json.bool false) :
    l.all (fun s => s.passed.truthy) = false := by
  rcases h : l.all (fun s => s.passed.truthy) with _ | _
  · rfl
  · rw [List.all_eq_true] at h
    have := h _ (l.get_mem i hi)
    rw [hp] at this
    simp [Json.truthy] at this

theorem asArr_eq_some {j : Json} {l : List Json} (h : asArr j = some l) :
    j = Json.arr l := by
  cases j <;> simp [asArr] at h
  rw [h]

theorem stepResultsWalk_length :
    ∀ (exp llm : List Json) (l : List StepResult),
      stepResultsWalk exp llm = some l → l.length = exp.length := by
  intro exp
  induction exp with
  | nil =>
    intro llm l h
    simp only [stepResultsWalk] at h
    injection h with h
    simp [← h]
  | cons e es ih =>
    intro llm l h
    cases llm with
    | nil =>
      simp only [stepResultsWalk, Option.bind_eq_bind, Option.bind_eq_some] at h
      obtain ⟨a, _, x, _, rest, hrest, hl⟩ := h
      injection hl with hl
      subst hl
      simp [ih [] rest hrest]
    | cons s ls =>
      simp only [stepResultsWalk, Option.bind_eq_bind, Option.bind_eq_some] at h
      obtain ⟨p, _, ex, _, a, _, x, _, rest, hrest, hl⟩ := h
      injection hl with hl
      subst hl
      simp [ih ls rest hrest]

/-- Field-level description of the reducer's positional walk: the result at
index `i` is aligned with expected step `i`; it takes `passed`/`explanation`
from the judgment entry at `i` when one exists and is the synthesized failing
placeholder otherwise. -/
theorem stepResultsWalk_get :
    ∀ (exp llm : List Json) (l : List StepResult) (i : Nat)
      (hi : i < exp.length) (hl : i < l.length),
      stepResultsWalk exp llm = some l →
      ((∃ a, jGetD (exp.get ⟨i, hi⟩) "action" (Json.str "") = some a ∧
          (l.get ⟨i, hl⟩).action = a) ∧
       (∃ x, jGetD (exp.get ⟨i, hi⟩) "expect" (Json.str "") = some x ∧
          (l.get ⟨i, hl⟩).expect = x)) ∧
      (llm.length ≤ i →
        (l.get ⟨i, hl⟩).passed = Json.bool false ∧
        (l.get ⟨i, hl⟩).explanation = Json.str "Step missing from LLM response") ∧
      (∀ hllm : i < llm.length,
        (∃ pv, jGetD (llm.get ⟨i, hllm⟩) "passed" (Json.bool false) = some pv ∧
          (l.get ⟨i, hl⟩).passed = Json.bool pv.truthy) ∧
        (∃ ev, jGetD (llm.get ⟨i, hllm⟩) "explanation" (Json.str "") = some ev ∧
          (l.get ⟨i, hl⟩).explanation = ev)) := by
  intro exp
  induction exp with
  | nil => intro llm l i hi; simp at hi
  | cons e es ih =>
    intro llm l i hi hl h
    cases llm with
    | nil =>
      simp only [stepResultsWalk, Option.bind_eq_bind, Option.bind_eq_some] at h
      obtain ⟨a, ha, x, hx, rest, hrest, hlr⟩ := h
      injection hlr with hlr
      subst hlr
      cases i with
      | zero =>
        refine ⟨⟨⟨a, ha, rfl⟩, ⟨x, hx, rfl⟩⟩, fun _ => ⟨rfl, rfl⟩, ?_⟩
        intro hllm; simp at hllm
      | succ n =>
        have hn : n < es.length := Nat.lt_of_succ_lt_succ hi
        have hnl : n < rest.length := Nat.lt_of_succ_lt_succ hl
        have := ih [] rest n hn hnl hrest
        refine ⟨this.1, fun _ => (this.2.1 (Nat.zero_le n)), ?_⟩
        intro hllm; simp at hllm
    | cons s ls =>
      simp only [stepResultsWalk, Option.bind_eq_bind, Option.bind_eq_some] at h
      obtain ⟨p, hp, ex, hex, a, ha, x, hx, rest, hrest, hlr⟩ := h
      injection hlr with hlr
      subst hlr
      cases i with
      | zero =>
        refine ⟨⟨⟨a, ha, rfl⟩, ⟨x, hx, rfl⟩⟩, ?_, ?_⟩
        · intro habs; simp at habs
        · intro _
          exact ⟨⟨p, hp, rfl⟩, ⟨ex, hex, rfl⟩⟩
      | succ n =>
        have hn : n < es.length := Nat.lt_of_succ_lt_succ hi
        have hnl : n < rest.length := Nat.lt_of_succ_lt_succ hl
        have := ih ls rest n hn hnl hrest
        refine ⟨this.1, ?_, ?_⟩
        · intro hle
          exact this.2.1 (Nat.le_of_succ_le_succ hle)
        · intro hllm
          exact this.2.2 (Nat.lt_of_succ_lt_succ hllm)

/-- Decomposition of a successful reduction over a present judgment: what
`build_scenario_result` returns is determined by the scenario's step list and
the walk over the judgment's step list. -/
theorem build_some_elim {scenario : Json} {raw : String} {j : Json}
    {r : ScenarioResult} (h : build_scenario_result scenario raw (some j) = some r) :
    ∃ name expected llmSteps steps,
      jGetD scenario "name" (Json.str "unnamed") = some name ∧
      jGetD scenario "steps" (Json.arr []) = some (Json.arr expected) ∧
      jGetD j "steps" (Json.arr []) = some (Json.arr llmSteps) ∧
      stepResultsWalk expected llmSteps = some steps ∧
      r = { name := name, steps := steps,
            overall_passed := Json.bool (steps.all (fun s => s.passed.truthy)),
            error := Json.null, fix_suggestion := none, from_cache := false } := by
  simp only [build_scenario_result, Option.bind_eq_bind, Option.bind_eq_some] at h
  obtain ⟨name, hname, expJ, hexp, llmJ, hllm, expL, hexpL, llmL, hllmL, steps,
    hsteps, hr⟩ := h
  injection hr with hr
  have hexpA := asArr_eq_some hexpL
  have hllmA := asArr_eq_some hllmL
  subst hexpA hllmA
  exact ⟨name, _, _, steps, hname, hexp, hllm, hsteps, hr.symm⟩

/-! ## Claim theorems -/

/-- C4: the parser's three layers are attempted in order with first success
winning: a plain JSON object succeeds at layer 1; a fenced object fails
layer 1 and succeeds at layer 2; an object wrapped in prose fails layers
1 and 2 and succeeds at layer 3 (greedy first-to-last brace extraction);
plain text fails all three layers and yields no result. -/
theorem parser_layer_ordering :
    (parse_llm_response "\x7b\"overall\":true,\"steps\":[]\x7d" 0 =
        some (Json.obj [("overall", Json.bool true), ("steps", Json.arr [])]) ∧
      layer1 "\x7b\"overall\":true,\"steps\":[]\x7d" =
        some (Json.obj [("overall", Json.bool true), ("steps", Json.arr [])])) ∧
    (layer1 "```json\n\x7b\"overall\":true,\"steps\":[]\x7d\n```" = none ∧
      layer2 "```json\n\x7b\"overall\":true,\"steps\":[]\x7d\n```" =
        some (Json.obj [("overall", Json.bool true), ("steps", Json.arr [])]) ∧
      parse_llm_response "```json\n\x7b\"overall\":true,\"steps\":[]\x7d\n```" 0 =
        some (Json.obj [("overall", Json.bool true), ("steps", Json.arr [])])) ∧
    (layer1 "noise \x7b\"overall\":false,\"steps\":[]\x7d noise" = none ∧
      layer2 "noise \x7b\"overall\":false,\"steps\":[]\x7d noise" = none ∧
      layer3 "noise \x7b\"overall\":false,\"steps\":[]\x7d noise" =
        some (Json.obj [("overall", Json.bool false), ("steps", Json.arr [])]) ∧
      parse_llm_response "noise \x7b\"overall\":false,\"steps\":[]\x7d noise" 0 =
        some (Json.obj [("overall", Json.bool false), ("steps", Json.arr [])])) ∧
    parse_llm_response "not json" 0 = none := by
  decide

/-- C10: a syntactically valid JSON document can still yield no parse: the
empty object decodes successfully at every layer but is falsy, so each layer
treats it as a failure and the empty-object input parses to no result. -/
theorem falsy_object_parsed_as_none :
    try_parse "\x7b\x7d" = some (Json.obj []) ∧
    Json.truthy (Json.obj []) = false ∧
    parse_llm_response "\x7b\x7d" 0 = none := by
  decide

/-- C2 counterexample: a bare (non-empty) JSON array is decoded at layer 1
and returned as-is, not turned into "no result" — the claim that any decoded
non-object yields no result fails on this input. -/
theorem parse_returns_truthy_nonobject :
    parse_llm_response "[1]" 1 = some (Json.arr [Json.num 1]) ∧
    Json.isObj (Json.arr [Json.num 1]) = false := by
  decide

/-- C2 (amended): the parser is total (never raises) and returns no result
exactly when all three layers fail; every returned value is truthy, and a
successfully decoded falsy value (such as the empty object or empty array)
is treated as a layer failure — but a decoded *truthy* non-object is
returned as-is rather than rejected. -/
theorem parse_total_and_truthy :
    ∀ (raw : String) (n : Nat),
      (parse_llm_response raw n = none ↔
        (layer1 raw = none ∧ layer2 raw = none ∧ layer3 raw = none)) ∧
      (∀ v, parse_llm_response raw n = some v → v.truthy = true) ∧
      (∀ v, try_parse raw = some v → v.truthy = false → layer1 raw = none) := by
  intro raw n
  refine ⟨⟨?_, ?_⟩, ?_, ?_⟩
  · intro h
    unfold parse_llm_response at h
    cases h1 : layer1 raw with
    | some v => simp only [h1] at h; exact absurd h (by simp)
    | none =>
      simp only [h1] at h
      cases h2 : layer2 raw with
      | some v => simp only [h2] at h; exact absurd h (by simp)
      | none =>
        simp only [h2] at h
        exact ⟨rfl, rfl, h⟩
  · intro h
    obtain ⟨h1, h2, h3⟩ := h
    unfold parse_llm_response
    simp only [h1, h2, h3]
  · intro v h
    unfold parse_llm_response at h
    cases h1 : layer1 raw with
    | some w =>
      simp only [h1] at h
      injection h with h
      subst h
      exact (keepTruthy_eq_some h1).2
    | none =>
      simp only [h1] at h
      cases h2 : layer2 raw with
      | some w =>
        simp only [h2] at h
        injection h with h
        subst h
        exact (keepTruthy_eq_some h2).2
      | none =>
        simp only [h2] at h
        unfold layer3 at h
        cases hx : extractBraces raw with
        | none => rw [hx] at h; exact absurd h (by simp)
        | some sub =>
          rw [hx] at h
          exact (keepTruthy_eq_some h).2
  · intro v h hf
    simp [layer1, h, keepTruthy, hf]

/-- C2 witness: the amended theorem applied at concrete inputs — plain text
fails all three layers, and the empty array decodes but is falsy, so layer 1
rejects it. -/
theorem parse_total_and_truthy_witness :
    parse_llm_response "plain text, no json here" 0 = none ∧
    layer1 "[]" = none :=
  ⟨(parse_total_and_truthy "plain text, no json here" 0).1.mpr
      ⟨by decide, by decide, by decide⟩,
    (parse_total_and_truthy "[]" 0).2.2 (Json.arr []) (by decide) (by decide)⟩

/-- C1: for every scenario and every present parsed judgment, the reduced
result has no error and its `overall_passed` is exactly the conjunction of
the `passed` flags of its step results; the reduction never reads the
judgment's own `overall` field (judgments agreeing on their step list reduce
identically); concretely, a judgment claiming `overall: true` with a failed
step reduces to `overall_passed = false`. -/
theorem overall_recomputed_from_steps :
    (∀ (scenario : Json) (raw : String) (j : Json) (r : ScenarioResult),
        build_scenario_result scenario raw (some j) = some r →
        r.error = Json.null ∧
        r.overall_passed = Json.bool (r.steps.all (fun s => s.passed.truthy))) ∧
    (∀ (scenario : Json) (raw : String) (j1 j2 : Json),
        jGetD j1 "steps" (Json.arr []) = jGetD j2 "steps" (Json.arr []) →
        build_scenario_result scenario raw (some j1) =
          build_scenario_result scenario raw (some j2)) ∧
    ((build_scenario_result exScenario2 "" (some exJudgmentOverstated)).map
        (fun r => r.overall_passed) = some (Json.bool false) ∧
      jGetD exJudgmentOverstated "overall" Json.null = some (Json.bool true)) := by
  refine ⟨?_, ?_, by decide⟩
  · intro scenario raw j r h
    obtain ⟨name, expected, llmSteps, steps, _, _, _, _, hr⟩ := build_some_elim h
    subst hr
    exact ⟨rfl, rfl⟩
  · intro scenario raw j1 j2 h
    simp only [build_scenario_result]
    rw [h]

/-- C1 witness: the invariant instantiated on the two-step scenario whose
judgment overstates its `overall`. -/
theorem overall_recomputed_from_steps_witness :
    exResultOverstated.error = Json.null ∧
    exResultOverstated.overall_passed =
      Json.bool (exResultOverstated.steps.all (fun s => s.passed.truthy)) :=
  overall_recomputed_from_steps.1 exScenario2 "" exJudgmentOverstated
    exResultOverstated (by decide)

/-- C3 counterexample: the synthesized explanation for a missing step is the
literal string "Step missing from LLM response", which is not the string
"step missing from model response" stated by the claim. -/
theorem missing_step_sentinel_text :
    (build_scenario_result exScenario1 "" (some exJudgmentNoSteps)).map
        (fun r => r.steps.map (fun s => s.explanation)) =
      some [Json.str "Step missing from LLM response"] ∧
    Json.str "Step missing from LLM response" ≠
      Json.str "step missing from model response" := by
  decide

/-- C3 (amended): when the judgment's step list is shorter than the expected
list, every unmatched expected index is synthesized with `passed = false` and
the missing-step explanation "Step missing from LLM response", the scenario's
`overall_passed` recomputes to `false`, and the result carries exactly one
step result per expected step, positionally aligned with the expected
actions and expectations. -/
theorem missing_steps_padded :
    ∀ (scenario : Json) (raw : String) (j : Json) (r : ScenarioResult)
      (expected llmSteps : List Json),
      jGetD scenario "steps" (Json.arr []) = some (Json.arr expected) →
      jGetD j "steps" (Json.arr []) = some (Json.arr llmSteps) →
      build_scenario_result scenario raw (some j) = some r →
      r.steps.length = expected.length ∧
      (∀ (i : Nat) (hi : i < expected.length) (hl : i < r.steps.length),
        (∃ a, jGetD (expected.get ⟨i, hi⟩) "action" (Json.str "") = some a ∧
           (r.steps.get ⟨i, hl⟩).action = a) ∧
        (∃ x, jGetD (expected.get ⟨i, hi⟩) "expect" (Json.str "") = some x ∧
           (r.steps.get ⟨i, hl⟩).expect = x)) ∧
      (∀ (i : Nat) (hl : i < r.steps.length), llmSteps.length ≤ i →
        (r.steps.get ⟨i, hl⟩).passed = Json.bool false ∧
        (r.steps.get ⟨i, hl⟩).explanation =
          Json.str "Step missing from LLM response") ∧
      (llmSteps.length < expected.length → r.overall_passed = Json.bool false) := by
  intro scenario raw j r expected llmSteps hexp hllm hb
  obtain ⟨name, exp', llm', steps, hname, hexp', hllm', hwalk, hr⟩ :=
    build_some_elim hb
  have he := hexp.symm.trans hexp'
  injection he with he
  injection he with he
  subst he
  have hm := hllm.symm.trans hllm'
  injection hm with hm
  injection hm with hm
  subst hm
  subst hr
  have hlen := stepResultsWalk_length expected llmSteps steps hwalk
  refine ⟨hlen, ?_, ?_, ?_⟩
  · intro i hi hl
    exact (stepResultsWalk_get expected llmSteps steps i hi hl hwalk).1
  · intro i hl hge
    have hi : i < expected.length := hlen ▸ hl
    exact (stepResultsWalk_get expected llmSteps steps i hi hl hwalk).2.1 hge
  · intro hlt
    have hl : llmSteps.length < steps.length := by omega
    have hmiss :=
      (stepResultsWalk_get expected llmSteps steps llmSteps.length hlt hl
        hwalk).2.1 (Nat.le_refl _)
    show Json.bool (steps.all (fun s => s.passed.truthy)) = Json.bool false
    rw [all_truthy_false hl hmiss.1]

/-- C3 witness: the padding behaviour instantiated on the one-step scenario
whose judgment supplies no steps. -/
theorem missing_steps_padded_witness :
    exResultMissing.steps.length =
      [Json.obj [("action", Json.str "do x"), ("expect", Json.str "y")]].length ∧
    exResultMissing.overall_passed = Json.bool false :=
  ⟨(missing_steps_padded exScenario1 "" exJudgmentNoSteps exResultMissing
      [Json.obj [("action", Json.str "do x"), ("expect", Json.str "y")]] []
      (by decide) (by decide) (by decide)).1,
   (missing_steps_padded exScenario1 "" exJudgmentNoSteps exResultMissing
      [Json.obj [("action", Json.str "do x"), ("expect", Json.str "y")]] []
      (by decide) (by decide) (by decide)).2.2.2 (by decide)⟩

/-- C9 counterexample: a well-formed (error-free) reduced result can carry an
empty explanation — when the judgment's step is present but omits its
`explanation` field, the empty string is substituted, not a sentinel. -/
theorem present_step_empty_explanation :
    (build_scenario_result exScenario1 "" (some exJudgmentNoExplanation)).map
        (fun r => (r.error, r.steps.map (fun s => s.explanation))) =
      some (Json.null, [Json.str ""]) ∧
    Json.truthy (Json.str "") = false := by
  decide

/-- C9 (amended): in a reduced result from a present judgment, a step
missing from the judgment receives the non-empty sentinel explanation, while
a step present in the judgment receives exactly the judgment entry's
`explanation` value with the *empty string* as the default when omitted — so
explanations of present steps may be empty. -/
theorem explanation_default_rules :
    ∀ (scenario : Json) (raw : String) (j : Json) (r : ScenarioResult)
      (expected llmSteps : List Json),
      jGetD scenario "steps" (Json.arr []) = some (Json.arr expected) →
      jGetD j "steps" (Json.arr []) = some (Json.arr llmSteps) →
      build_scenario_result scenario raw (some j) = some r →
      (∀ (i : Nat) (hl : i < r.steps.length), llmSteps.length ≤ i →
        (r.steps.get ⟨i, hl⟩).explanation =
          Json.str "Step missing from LLM response" ∧
        ((r.steps.get ⟨i, hl⟩).explanation).truthy = true) ∧
      (∀ (i : Nat) (hl : i < r.steps.length) (hllm : i < llmSteps.length),
        ∃ ev, jGetD (llmSteps.get ⟨i, hllm⟩) "explanation" (Json.str "") = some ev ∧
          (r.steps.get ⟨i, hl⟩).explanation = ev) := by
  intro scenario raw j r expected llmSteps hexp hllm hb
  obtain ⟨name, exp', llm', steps, hname, hexp', hllm', hwalk, hr⟩ :=
    build_some_elim hb
  have he := hexp.symm.trans hexp'
  injection he with he
  injection he with he
  subst he
  have hm := hllm.symm.trans hllm'
  injection hm with hm
  injection hm with hm
  subst hm
  subst hr
  have hlen := stepResultsWalk_length expected llmSteps steps hwalk
  constructor
  · intro i hl hge
    have hi : i < expected.length := hlen ▸ hl
    have := (stepResultsWalk_get expected llmSteps steps i hi hl hwalk).2.1 hge
    refine ⟨this.2, ?_⟩
    rw [this.2]
    decide
  · intro i hl hllmi
    have hi : i < expected.length := hlen ▸ hl
    exact ((stepResultsWalk_get expected llmSteps steps i hi hl hwalk).2.2
      hllmi).2

/-- C9 witness: the defaulting rules instantiated on the judgment whose only
step omits its explanation. -/
theorem explanation_default_rules_witness :
    ∃ ev, jGetD (Json.obj [("passed", Json.bool true)]) "explanation"
        (Json.str "") = some ev ∧
      (exResultNoExplanation.steps.get ⟨0, by decide⟩).explanation = ev :=
  (explanation_default_rules exScenario1 "" exJudgmentNoExplanation
      exResultNoExplanation
      [Json.obj [("action", Json.str "do x"), ("expect", Json.str "y")]]
      [Json.obj [("passed", Json.bool true)]]
      (by decide) (by decide) (by decide)).2 0 (by decide) (by decide)

/-- Serializing then deserializing the step list of a cache entry restores it
exactly. -/
theorem steps_round_trip :
    ∀ (l : List StepResult),
      (l.map step_to_entry).mapM step_from_entry = some l := by
  intro l
  induction l with
  | nil => rfl
  | cons s t ih =>
    simp only [List.map_cons, List.mapM_cons]
    rw [show step_from_entry (step_to_entry s) = some s from rfl, ih]
    rfl

/-- C7: converting an error-free scenario result to a cache entry and back
reproduces its name, overall verdict and every step-result field in order,
with `from_cache = true` on the reconstruction. -/
theorem cache_entry_round_trip :
    ∀ (ts : String) (r : ScenarioResult), r.error = Json.null →
      _scenario_from_cache_entry (_scenario_to_cache_entry ts r) =
        some { name := r.name, steps := r.steps,
               overall_passed := r.overall_passed, error := Json.null,
               fix_suggestion := none, from_cache := true } := by
  intro ts r h
  have hbase : _scenario_from_cache_entry (_scenario_to_cache_entry ts r) =
      ((r.steps.map step_to_entry).mapM step_from_entry).bind
        (fun steps => some
          { name := r.name, steps := steps,
            overall_passed := r.overall_passed, error := r.error,
            fix_suggestion := none, from_cache := true }) := rfl
  rw [hbase, steps_round_trip, h]
  rfl

/-- C7 witness: the round trip instantiated on a concrete clean result. -/
theorem cache_entry_round_trip_witness :
    _scenario_from_cache_entry (_scenario_to_cache_entry "t0" exCleanResult) =
      some { name := exCleanResult.name, steps := exCleanResult.steps,
             overall_passed := exCleanResult.overall_passed, error := Json.null,
             fix_suggestion := none, from_cache := true } :=
  cache_entry_round_trip "t0" exCleanResult (by decide)

theorem string_data_inj {a b : String} (h : a.data = b.data) : a = b := by
  cases a; cases b; exact congrArg String.mk h

theorem jsonDumpsPairs_map :
    ∀ (kvs : List (String × Json)),
      jsonDumpsPairs kvs = kvs.map (fun p => (p.1, jsonDumps p.2)) := by
  intro kvs
  induction kvs with
  | nil => rfl
  | cons p rest ih =>
    obtain ⟨k, v⟩ := p
    simp only [jsonDumpsPairs, List.map_cons, ih]

/-- Two key-sorted association lists with the same members and duplicate-free
keys coincide. -/
theorem sorted_pairKeyLe_eq :
    ∀ (l1 l2 : List (String × String)),
      l1.Pairwise pairKeyLe → l2.Pairwise pairKeyLe → l1.Perm l2 →
      (l1.map Prod.fst).Nodup → l1 = l2 := by
  intro l1
  induction l1 with
  | nil =>
    intro l2 _ _ hp _
    exact (hp.symm.eq_nil).symm
  | cons a t1 ih =>
    intro l2 hs1 hs2 hp hnd
    cases l2 with
    | nil => exact absurd hp.eq_nil (by simp)
    | cons b t2 =>
      have hnd' : (a.1 :: t1.map Prod.fst).Nodup := by
        simpa only [List.map_cons] using hnd
      have hab : a = b := by
        have hma : a ∈ b :: t2 := hp.mem_iff.mp (List.mem_cons_self a t1)
        rcases List.mem_cons.mp hma with h | hat2
        · exact h
        · have hmb : b ∈ a :: t1 := hp.symm.mem_iff.mp (List.mem_cons_self b t2)
          rcases List.mem_cons.mp hmb with h | hbt1
          · exact h.symm
          · exfalso
            have h1 : pairKeyLe a b := (List.pairwise_cons.mp hs1).1 b hbt1
            have h2 : pairKeyLe b a := (List.pairwise_cons.mp hs2).1 a hat2
            have hkey : a.1 = b.1 := le_antisymm h1 h2
            rcases List.nodup_cons.mp hnd' with ⟨hna, _⟩
            exact hna (hkey ▸ List.mem_map_of_mem Prod.fst hbt1)
      subst hab
      have ht := ih t2 (List.pairwise_cons.mp hs1).2 (List.pairwise_cons.mp hs2).2
        hp.cons_inv (List.nodup_cons.mp hnd').2
      rw [ht]

/-- Sorting by key is insensitive to the input ordering when keys are
duplicate-free. -/
theorem sortPairs_perm_eq {l1 l2 : List (String × String)}
    (hp : l1.Perm l2) (hnd : (l1.map Prod.fst).Nodup) :
    sortPairs l1 = sortPairs l2 := by
  apply sorted_pairKeyLe_eq
  · exact List.sorted_insertionSort pairKeyLe l1
  · exact List.sorted_insertionSort pairKeyLe l2
  · exact ((List.perm_insertionSort pairKeyLe l1).trans hp).trans
      (List.perm_insertionSort pairKeyLe l2).symm
  · exact (((List.perm_insertionSort pairKeyLe l1).map Prod.fst).nodup_iff).mpr hnd

/-- C5 counterexample: the fingerprint does not distinguish an absent source
from an empty source — both are encoded as the empty string, so changing the
source from absent to present-but-empty leaves the cache key unchanged. -/
theorem cache_key_absent_source_collision :
    make_cache_key (Json.obj [("name", Json.str "Test"), ("steps", Json.arr [])])
        none "model" =
      make_cache_key (Json.obj [("name", Json.str "Test"), ("steps", Json.arr [])])
        (some "") "model" ∧
    (none : Option String) ≠ some "" :=
  ⟨rfl, by simp⟩

/-- C5 (amended): the fingerprint is a pure function of (sorted-key scenario
serialization, source content with absence encoded as the empty string,
model string); it is invariant under reordering of the scenario's keys, and
the hashed payload differs whenever the present-source encoding, the model
string, or the scenario serialization changes with the other inputs fixed —
but an absent source is fingerprinted identically to an empty one, and
distinctness of the final digests additionally assumes hash
collision-freeness, which is outside this model. -/
theorem cache_key_payload_distinctness :
    (∀ (kvs1 kvs2 : List (String × Json)) (src : Option String) (m : String),
        kvs1.Perm kvs2 → (kvs1.map Prod.fst).Nodup →
        make_cache_key (Json.obj kvs1) src m =
          make_cache_key (Json.obj kvs2) src m) ∧
    (∀ (s : Json) (src1 src2 : Option String) (m : String),
        src1.getD "" ≠ src2.getD "" →
        cacheKeyData s src1 m ≠ cacheKeyData s src2 m) ∧
    (∀ (s : Json) (src : Option String) (m1 m2 : String),
        m1 ≠ m2 → cacheKeyData s src m1 ≠ cacheKeyData s src m2) ∧
    (∀ (s1 s2 : Json) (src : Option String) (m : String),
        jsonDumps s1 ≠ jsonDumps s2 →
        cacheKeyData s1 src m ≠ cacheKeyData s2 src m) := by
  refine ⟨?_, ?_, ?_, ?_⟩
  · intro kvs1 kvs2 src m hperm hnd
    have hmapnd : ((kvs1.map (fun p => (p.1, jsonDumps p.2))).map Prod.fst).Nodup := by
      have : (kvs1.map (fun p => (p.1, jsonDumps p.2))).map Prod.fst =
          kvs1.map Prod.fst := by
        simp [List.map_map, Function.comp]
      rw [this]; exact hnd
    have hd : sortPairs (jsonDumpsPairs kvs1) = sortPairs (jsonDumpsPairs kvs2) := by
      rw [jsonDumpsPairs_map, jsonDumpsPairs_map]
      exact sortPairs_perm_eq (hperm.map _) hmapnd
    have hj : jsonDumps (Json.obj kvs1) = jsonDumps (Json.obj kvs2) := by
      simp only [jsonDumps]
      rw [hd]
    unfold make_cache_key cacheKeyData
    rw [hj]
  · intro s src1 src2 m hne hcontra
    have hdata := congrArg String.data hcontra
    simp only [cacheKeyData, String.data_append] at hdata
    exact hne (string_data_inj
      (List.append_cancel_left (List.append_cancel_right hdata)))
  · intro s src m1 m2 hne hcontra
    have hdata := congrArg String.data hcontra
    simp only [cacheKeyData, String.data_append] at hdata
    exact hne (string_data_inj (List.append_cancel_left hdata))
  · intro s1 s2 src m hne hcontra
    have hdata := congrArg String.data hcontra
    simp only [cacheKeyData, String.data_append] at hdata
    exact hne (string_data_inj
      (List.append_cancel_right (List.append_cancel_right hdata)))

/-- C5 witness: the amended fingerprint properties instantiated concretely —
key reordering leaves the key unchanged; source, model, or scenario changes
alter the hashed payload. -/
theorem cache_key_payload_distinctness_witness :
    make_cache_key (Json.obj [("name", Json.str "Test"), ("steps", Json.arr [])])
        (some "src") "m" =
      make_cache_key (Json.obj [("steps", Json.arr []), ("name", Json.str "Test")])
        (some "src") "m" ∧
    cacheKeyData (Json.str "S") (some "src-v1") "m" ≠
      cacheKeyData (Json.str "S") (some "src-v2") "m" ∧
    cacheKeyData (Json.str "S") (some "src") "model-a" ≠
      cacheKeyData (Json.str "S") (some "src") "model-b" ∧
    cacheKeyData (Json.str "Scenario A") (some "src") "m" ≠
      cacheKeyData (Json.str "Scenario B") (some "src") "m" :=
  ⟨cache_key_payload_distinctness.1 _ _ (some "src") "m"
      (List.Perm.swap _ _ _) (by decide),
    cache_key_payload_distinctness.2.1 _ _ _ _ (by decide),
    cache_key_payload_distinctness.2.2.1 _ _ _ _ (by decide),
    cache_key_payload_distinctness.2.2.2 _ _ _ _ (by decide)⟩

/-- A deserialized cache entry is always marked as from the cache and never
carries a fix suggestion. -/
theorem from_entry_fields {e : Json} {r : ScenarioResult}
    (h : _scenario_from_cache_entry e = some r) :
    r.from_cache = true ∧ r.fix_suggestion = none := by
  simp only [_scenario_from_cache_entry, Option.bind_eq_bind, Option.bind_eq_some]
    at h
  obtain ⟨d, _, sj, _, sl, _, st, _, nm, _, ov, _, er, _, hfin⟩ := h
  injection hfin with hfin
  subst hfin
  exact ⟨rfl, rfl⟩

/-- A freshly reduced result is not from the cache and carries no fix
suggestion. -/
theorem build_fields {scenario : Json} {raw : String} {parsed : Option Json}
    {r : ScenarioResult} (h : build_scenario_result scenario raw parsed = some r) :
    r.from_cache = false ∧ r.fix_suggestion = none := by
  cases parsed with
  | none =>
    simp only [build_scenario_result, Option.bind_eq_bind, Option.bind_eq_some]
      at h
    obtain ⟨nm, _, ej, _, hfin⟩ := h
    injection hfin with hfin
    subst hfin
    exact ⟨rfl, rfl⟩
  | some j =>
    obtain ⟨_, _, _, _, _, _, _, _, hr⟩ := build_some_elim h
    subst hr
    exact ⟨rfl, rfl⟩

/-- C6: only error-free results are ever written to the cache. A gateway
failure (on a cache miss) short-circuits to an error result with the
gateway's message and leaves the entry map untouched — no parse, reduce or
store step contributes to it; and any entry present in the map after a run
was either already there or stores a result whose error is none (so parse
failures are never stored and are re-attempted on the next run). -/
theorem cache_stores_only_clean_results :
    (∀ (model : String) (scenario : Json) (src : Option String) (ts : String)
        (uc : Bool) (ce : Option CacheMap) (fix : Bool)
        (fo : Except String String) (msg : String),
        cacheHit uc ce scenario src model = none →
        run_scenario model scenario src ts uc ce fix (.error msg) fo =
          (jGetD scenario "name" (Json.str "unnamed")).map
            (fun nm => ({ name := nm, steps := [],
                          overall_passed := Json.bool false,
                          error := Json.str ("LLM error: " ++ msg),
                          fix_suggestion := none, from_cache := false }, ce))) ∧
    (∀ (model : String) (scenario : Json) (src : Option String) (ts : String)
        (uc : Bool) (ce0 : CacheMap) (fix : Bool)
        (lo fo : Except String String) (r : ScenarioResult) (ce' : CacheMap),
        run_scenario model scenario src ts uc (some ce0) fix lo fo =
          some (r, some ce') →
        ∀ p ∈ ce', p ∈ ce0 ∨
          ∃ rr, p.2 = _scenario_to_cache_entry ts rr ∧ rr.error = Json.null) := by
  constructor
  · intro model scenario src ts uc ce fix fo msg hmiss
    unfold run_scenario
    rw [hmiss]
    cases hn : jGetD scenario "name" (Json.str "unnamed") <;> simp [hn]
  · intro model scenario src ts uc ce0 fix lo fo r ce' h p hp
    unfold run_scenario at h
    split at h
    next entry heq =>
      cases hfe : _scenario_from_cache_entry entry <;> rw [hfe] at h
      · exact absurd h (by simp)
      · rename_i r0
        have h' : some (r0, some ce0) = some (r, some ce') := h
        injection h' with h'
        injection h' with h1 h2
        injection h2 with h2
        subst h2
        exact Or.inl hp
    next heq =>
      cases lo with
      | error msg =>
        simp only [Option.bind_eq_bind, Option.bind_eq_some] at h
        obtain ⟨nm, _, hfin⟩ := h
        injection hfin with hfin
        injection hfin with h1 h2
        injection h2 with h2
        subst h2
        exact Or.inl hp
      | ok raw =>
        simp only [Option.bind_eq_bind, Option.bind_eq_some] at h
        obtain ⟨expJ, h1, len, h2, result, h3, hfin⟩ := h
        injection hfin with hfin
        injection hfin with hr hc
        cases uc with
        | false =>
          have hc' : some ce0 = some ce' := hc
          injection hc' with hc'
          subst hc'
          exact Or.inl hp
        | true =>
          have hc' : (if result.error.isNull = true then
              some (setEntry ce0 (make_cache_key scenario src model)
                (_scenario_to_cache_entry ts result))
            else some ce0) = some ce' := hc
          by_cases hnull : result.error.isNull = true
          · rw [if_pos hnull] at hc'
            injection hc' with hc'
            subst hc'
            rcases setEntry_mem hp with hin | hnew
            · exact Or.inl hin
            · exact Or.inr ⟨result, by rw [hnew], (isNull_iff _).mp hnull⟩
          · rw [if_neg hnull] at hc'
            injection hc' with hc'
            subst hc'
            exact Or.inl hp

/-- C6 witness: a gateway failure on a one-step scenario produces the error
result and leaves a pre-existing entry map unchanged; the store invariant
applied to that run confirms the surviving entry was already present. -/
theorem cache_stores_only_clean_results_witness :
    run_scenario "m" exScenario1 none "t" false (some [("k0", Json.null)]) false
        (.error "boom") (.ok "x") =
      (jGetD exScenario1 "name" (Json.str "unnamed")).map
        (fun nm => ({ name := nm, steps := [],
                      overall_passed := Json.bool false,
                      error := Json.str ("LLM error: " ++ "boom"),
                      fix_suggestion := none, from_cache := false },
                    some [("k0", Json.null)])) ∧
    (("k0", Json.null) ∈ ([("k0", Json.null)] : CacheMap) ∨
      ∃ rr, Json.null = _scenario_to_cache_entry "t" rr ∧ rr.error = Json.null) :=
  ⟨cache_stores_only_clean_results.1 "m" exScenario1 none "t" false
      (some [("k0", Json.null)]) false (.ok "x") "boom" (by decide),
    cache_stores_only_clean_results.2 "m" exScenario1 none "t" false
      [("k0", Json.null)] false (.error "boom") (.ok "x")
      { name := Json.str "Single", steps := [],
        overall_passed := Json.bool false,
        error := Json.str "LLM error: boom",
        fix_suggestion := none, from_cache := false }
      [("k0", Json.null)] (by decide) ("k0", Json.null) (by decide)⟩

/-- C8: the fix pass is isolated: a run with `fix` enabled returns the same
cache map and the same result fields (name, steps, verdict, error, cache
origin) as the run without it, always with no fix suggestion on the base
result; the suggestion is filled in — with the gateway's returned text
verbatim — only when the scenario was freshly evaluated, failed, and has no
error, and a gateway failure during the fix pass is swallowed, leaving the
suggestion unset and everything else unchanged. -/
theorem fix_phase_frame :
    ∀ (model : String) (scenario : Json) (src : Option String) (ts : String)
      (uc : Bool) (ce : Option CacheMap) (lo fo : Except String String)
      (r : ScenarioResult) (c : Option CacheMap),
      run_scenario model scenario src ts uc ce true lo fo = some (r, c) →
      ∃ r0, run_scenario model scenario src ts uc ce false lo fo = some (r0, c) ∧
        r0.fix_suggestion = none ∧
        r.name = r0.name ∧ r.steps = r0.steps ∧
        r.overall_passed = r0.overall_passed ∧ r.error = r0.error ∧
        r.from_cache = r0.from_cache ∧
        (if r0.from_cache = false ∧ r0.overall_passed.truthy = false ∧
            r0.error = Json.null then
          (∀ t, fo = .ok t → r.fix_suggestion = some t) ∧
          (∀ e, fo = .error e → r.fix_suggestion = none)
        else r.fix_suggestion = none) := by
  intro model scenario src ts uc ce lo fo r c h
  unfold run_scenario at h
  split at h
  next entry heq =>
    cases hfe : _scenario_from_cache_entry entry <;> rw [hfe] at h
    · exact absurd h (by simp)
    · rename_i r0
      have h' : some (r0, ce) = some (r, c) := h
      injection h' with h'
      injection h' with h1 h2
      subst h1 h2
      obtain ⟨hfc, hfs⟩ := from_entry_fields hfe
      refine ⟨r0, ?_, hfs, rfl, rfl, rfl, rfl, rfl, ?_⟩
      · unfold run_scenario
        rw [heq]
        simp [hfe]
      · rw [if_neg]
        · exact hfs
        · rintro ⟨hf, _, _⟩
          rw [hfc] at hf
          exact Bool.noConfusion hf
  next heq =>
    cases lo with
    | error msg =>
      simp only [Option.bind_eq_bind, Option.bind_eq_some] at h
      obtain ⟨nm, hnm, hfin⟩ := h
      injection hfin with hfin
      injection hfin with h1 h2
      subst h1 h2
      refine ⟨_, ?_, rfl, rfl, rfl, rfl, rfl, rfl, ?_⟩
      · unfold run_scenario
        rw [heq]
        simp [hnm]
      · rw [if_neg (by rintro ⟨hx, hy, hn⟩; exact absurd hn (by simp))]
    | ok raw =>
      simp only [Option.bind_eq_bind, Option.bind_eq_some] at h
      obtain ⟨expJ, h1, len, h2, result, h3, hfin⟩ := h
      injection hfin with hfin
      injection hfin with hr hc
      simp only [Bool.true_and] at hr
      have hrunf : run_scenario model scenario src ts uc ce false (.ok raw) fo =
          some (result, c) := by
        unfold run_scenario
        rw [heq, ← hc]
        simp [h1, h2, h3]
      by_cases hb : (!result.overall_passed.truthy && result.error.isNull) = true
      · have hb2 := hb
        rw [Bool.and_eq_true] at hb2
        obtain ⟨htr, hnl⟩ := hb2
        have htr' : result.overall_passed.truthy = false := by
          cases hx : result.overall_passed.truthy
          · rfl
          · rw [hx] at htr; exact absurd htr (by decide)
        have hnl' : result.error = Json.null := (isNull_iff _).mp hnl
        rw [if_pos hb] at hr
        cases fo with
        | ok t =>
          subst hr
          refine ⟨result, hrunf, (build_fields h3).2, rfl, rfl, rfl, rfl, rfl, ?_⟩
          rw [if_pos ⟨(build_fields h3).1, htr', hnl'⟩]
          constructor
          · intro t' ht'
            injection ht' with ht'
            subst ht'
            rfl
          · intro e he
            exact Except.noConfusion he
        | error e =>
          subst hr
          refine ⟨result, hrunf, (build_fields h3).2, rfl, rfl, rfl, rfl, rfl, ?_⟩
          rw [if_pos ⟨(build_fields h3).1, htr', hnl'⟩]
          constructor
          · intro t ht
            exact Except.noConfusion ht
          · intro e' he'
            exact (build_fields h3).2
      · rw [if_neg hb] at hr
        subst hr
        refine ⟨result, hrunf, (build_fields h3).2, rfl, rfl, rfl, rfl, rfl, ?_⟩
        rw [if_neg]
        · exact (build_fields h3).2
        · rintro ⟨hfcz, ht, hn⟩
          apply hb
          rw [ht, (isNull_iff result.error).mpr hn]
          rfl

/-- C8 witness: the frame property instantiated on a fresh failing one-step
evaluation whose fix call succeeds — the base run carries no suggestion and
the fix-enabled run stores the returned text verbatim. -/
theorem fix_phase_frame_witness :
    ∃ r0, run_scenario "m" exScenario1 none "t" false none false
        (.ok exRawOneFail) (.ok "Add a fix.") = some (r0, none) ∧
      r0.fix_suggestion = none ∧
      exResultOneFailFixed.name = r0.name ∧
      exResultOneFailFixed.steps = r0.steps ∧
      exResultOneFailFixed.overall_passed = r0.overall_passed ∧
      exResultOneFailFixed.error = r0.error ∧
      exResultOneFailFixed.from_cache = r0.from_cache ∧
      (if r0.from_cache = false ∧ r0.overall_passed.truthy = false ∧
          r0.error = Json.null then
        (∀ t, (Except.ok "Add a fix." : Except String String) = .ok t →
          exResultOneFailFixed.fix_suggestion = some t) ∧
        (∀ e, (Except.ok "Add a fix." : Except String String) = .error e →
          exResultOneFailFixed.fix_suggestion = none)
      else exResultOneFailFixed.fix_suggestion = none) :=
  fix_phase_frame "m" exScenario1 none "t" false none (.ok exRawOneFail)
    (.ok "Add a fix.") exResultOneFailFixed none (by decide)
